import Mathlib

/-!
Shallow embedding of `myDisassembler.py`, a single-pass MIPS disassembler.

Modelling conventions:
* an input word is the `List Char` of its 8 hex characters (one line of the
  input file, without the trailing newline — the newline is semantically inert
  in the source: slicing indices below 8 never reach it and Python `int`
  strips surrounding whitespace);
* output-buffer lines are `String`s;
* every way the Python process can abort (an `errorOut` call, which does
  `sys.exit(1)`, or an uncaught exception such as `TypeError` from
  concatenating `None`, `ValueError` from `int('')`, or `IndexError` from an
  out-of-range list access) is modelled as `none`;
* Python opcode strings such as `'0x23'` produced by `hex(...)` are in
  bijection with the underlying natural numbers, so the opcode dictionaries
  are keyed by `Nat` rather than by the rendered hex string.
-/

namespace Disasm

/-- `int(c, 16)` digit value: Python accepts both cases. -/
def hexDigitVal (c : Char) : Option Nat :=
  if '0' ≤ c ∧ c ≤ '9' then some (c.toNat - 48)
  else if 'a' ≤ c ∧ c ≤ 'f' then some (c.toNat - 87)
  else if 'A' ≤ c ∧ c ≤ 'F' then some (c.toNat - 55)
  else none

/-- `int(c, 2)` digit value. -/
def binDigitVal (c : Char) : Option Nat :=
  if c = '0' then some 0 else if c = '1' then some 1 else none

/-- `int(c, 10)` digit value. -/
def decDigitVal (c : Char) : Option Nat :=
  if '0' ≤ c ∧ c ≤ '9' then some (c.toNat - 48) else none

/-- Accumulator loop of Python `int(s, base)`. -/
def parseDigitsAux (base : Nat) (dv : Char → Option Nat) : Nat → List Char → Option Nat
  | acc, [] => some acc
  | acc, c :: cs =>
    match dv c with
    | some d => parseDigitsAux base dv (acc * base + d) cs
    | none => none

/-- Python `int(s, base)`: `ValueError` (= `none`) on the empty string or a bad digit. -/
def parseDigits (base : Nat) (dv : Char → Option Nat) : List Char → Option Nat
  | [] => none
  | cs => parseDigitsAux base dv 0 cs

def parseHex : List Char → Option Nat := parseDigits 16 hexDigitVal

def parseBin : List Char → Option Nat := parseDigits 2 binDigitVal

def parseDec : List Char → Option Nat := parseDigits 10 decDigitVal

/-- The `rOpcodes` dictionary, keyed by the numeric value of its hex-string keys. -/
def rOpcodes (n : Nat) : Option String :=
  if n = 0x0 then some "sll"
  else if n = 0x2 then some "srl"
  else if n = 0x20 then some "add"
  else if n = 0x21 then some "addu"
  else if n = 0x22 then some "sub"
  else if n = 0x23 then some "subu"
  else if n = 0x24 then some "and"
  else if n = 0x25 then some "or"
  else if n = 0x27 then some "nor"
  else if n = 0x2a then some "slt"
  else if n = 0x2b then some "sltu"
  else none

/-- The `iOpcodes` dictionary, keyed by the numeric value of its hex-string keys. -/
def iOpcodes (n : Nat) : Option String :=
  if n = 0x4 then some "beq"
  else if n = 0x5 then some "bne"
  else if n = 0x8 then some "addi"
  else if n = 0x9 then some "addiu"
  else if n = 0xa then some "slti"
  else if n = 0xb then some "sltiu"
  else if n = 0xc then some "andi"
  else if n = 0xd then some "ori"
  else if n = 0xf then some "lui"
  else if n = 0x23 then some "lw"
  else if n = 0x24 then some "lbu"
  else if n = 0x25 then some "lhu"
  else if n = 0x28 then some "sb"
  else if n = 0x29 then some "sh"
  else if n = 0x30 then some "ll"
  else if n = 0x38 then some "sc"
  else if n = 0x2b then some "sw"
  else none

/-- The `registerDictionary`: 5-character binary keys to ABI register names. -/
def registerDictionary : List Char → Option String
  | ['0','0','0','0','0'] => some "$zero"
  | ['0','0','0','0','1'] => some "$at"
  | ['0','0','0','1','0'] => some "$v0"
  | ['0','0','0','1','1'] => some "$v1"
  | ['0','0','1','0','0'] => some "$a0"
  | ['0','0','1','0','1'] => some "$a1"
  | ['0','0','1','1','0'] => some "$a2"
  | ['0','0','1','1','1'] => some "$a3"
  | ['0','1','0','0','0'] => some "$t0"
  | ['0','1','0','0','1'] => some "$t1"
  | ['0','1','0','1','0'] => some "$t2"
  | ['0','1','0','1','1'] => some "$t3"
  | ['0','1','1','0','0'] => some "$t4"
  | ['0','1','1','0','1'] => some "$t5"
  | ['0','1','1','1','0'] => some "$t6"
  | ['0','1','1','1','1'] => some "$t7"
  | ['1','0','0','0','0'] => some "$s0"
  | ['1','0','0','0','1'] => some "$s1"
  | ['1','0','0','1','0'] => some "$s2"
  | ['1','0','0','1','1'] => some "$s3"
  | ['1','0','1','0','0'] => some "$s4"
  | ['1','0','1','0','1'] => some "$s5"
  | ['1','0','1','1','0'] => some "$s6"
  | ['1','0','1','1','1'] => some "$s7"
  | ['1','1','0','0','0'] => some "$t8"
  | ['1','1','0','0','1'] => some "$t9"
  | ['1','1','0','1','0'] => some "$k0"
  | ['1','1','0','1','1'] => some "$k1"
  | ['1','1','1','0','0'] => some "$gp"
  | ['1','1','1','0','1'] => some "$sp"
  | ['1','1','1','1','0'] => some "$fp"
  | ['1','1','1','1','1'] => some "$ra"
  | _ => none

/-- The `hexToBinLookup` dictionary: lowercase hex digit to 4 binary characters. -/
def hexToBinLookup : Char → Option (List Char)
  | '0' => some ['0','0','0','0']
  | '1' => some ['0','0','0','1']
  | '2' => some ['0','0','1','0']
  | '3' => some ['0','0','1','1']
  | '4' => some ['0','1','0','0']
  | '5' => some ['0','1','0','1']
  | '6' => some ['0','1','1','0']
  | '7' => some ['0','1','1','1']
  | '8' => some ['1','0','0','0']
  | '9' => some ['1','0','0','1']
  | 'a' => some ['1','0','1','0']
  | 'b' => some ['1','0','1','1']
  | 'c' => some ['1','1','0','0']
  | 'd' => some ['1','1','0','1']
  | 'e' => some ['1','1','1','0']
  | 'f' => some ['1','1','1','1']
  | _ => none

/-- `getOpCode`: `hex(int(value[:2], 16) >> 2)`, kept as the underlying number. -/
def getOpCode (w : List Char) : Option Nat :=
  (parseHex (w.take 2)).map (fun n => n / 4)

/-- `getRTypeFunction`: last four characters parsed as hex, masked with `0b00111111`,
looked up in `rOpcodes`; `errorOut` (= `none`) on a miss. -/
def getRTypeFunction (w : List Char) : Option String := do
  let n ← parseHex (w.drop (w.length - 4))
  rOpcodes (n &&& 63)

/-- `getRTypeRDRegister`: nibbles of characters 4 and 5, bits `[0:5]`. -/
def getRTypeRDRegister (w : List Char) : Option String := do
  let c4 ← w[4]?
  let c5 ← w[5]?
  let b4 ← hexToBinLookup c4
  let b5 ← hexToBinLookup c5
  registerDictionary ((b4 ++ b5).take 5)

/-- `getRSRegister`: nibbles of characters 1 and 2, bits `[2:7]`. -/
def getRSRegister (w : List Char) : Option String := do
  let c1 ← w[1]?
  let c2 ← w[2]?
  let b1 ← hexToBinLookup c1
  let b2 ← hexToBinLookup c2
  registerDictionary (((b1 ++ b2).drop 2).take 5)

/-- `getRTRegister`: nibbles of characters 2 and 3, bits `[3:]`. -/
def getRTRegister (w : List Char) : Option String := do
  let c2 ← w[2]?
  let c3 ← w[3]?
  let b2 ← hexToBinLookup c2
  let b3 ← hexToBinLookup c3
  registerDictionary ((b2 ++ b3).drop 3)

/-- `getRTypeShamt`: nibbles of characters 5 and 6, bits `[1:6]`, rendered in decimal. -/
def getRTypeShamt (w : List Char) : Option String := do
  let c5 ← w[5]?
  let c6 ← w[6]?
  let b5 ← hexToBinLookup c5
  let b6 ← hexToBinLookup c6
  let n ← parseBin (((b5 ++ b6).drop 1).take 5)
  pure (Nat.repr n)

/-- `getITypeImmediate`: nibbles of characters 4..7 parsed as a 16-bit number
(the source renders it with `str` and later re-parses with `int`; the round
trip is the identity, so the value is kept as a `Nat`). -/
def getITypeImmediate (w : List Char) : Option Nat := do
  let c4 ← w[4]?
  let c5 ← w[5]?
  let c6 ← w[6]?
  let c7 ← w[7]?
  let b4 ← hexToBinLookup c4
  let b5 ← hexToBinLookup c5
  let b6 ← hexToBinLookup c6
  let b7 ← hexToBinLookup c7
  parseBin (b4 ++ b5 ++ b6 ++ b7)

/-- Python `bin(n)` for a nonnegative `n`: `'0b'` followed by the binary digits. -/
def pyBin (n : Nat) : List Char := '0' :: 'b' :: Nat.toDigits 2 n

def isZB (c : Char) : Bool := c == '0' || c == 'b'

/-- Python `s.strip('0b')`: removes any leading and trailing characters drawn
from the set `{'0', 'b'}` (in particular it also removes trailing `'0'`s). -/
def stripZB (cs : List Char) : List Char :=
  ((cs.dropWhile isZB).reverse.dropWhile isZB).reverse

def flipBit (c : Char) : Char :=
  if c = '0' then '1' else if c = '1' then '0' else c

/-- The loop of `twosCM`: every character except the one at index 0 is inverted. -/
def twosFlip : List Char → List Char
  | [] => []
  | c :: rest => c :: rest.map flipBit

/-- `twosCM`: `bin(int(immediate) & 0xFFFF).strip('0b')`, invert all bits but the
first, then `int(binString) + 1` — note the **base-10** parse — rendered back
with `str`. -/
def twosCM (immediate : Nat) : Option (List Char) :=
  let binString := stripZB (pyBin (immediate % 65536))
  let flipped := twosFlip binString
  match parseDec flipped with
  | none => none
  | some n => some (Nat.toDigits 10 (n + 1))

/-- `getSignedInteger`: sign character at index 0, the rest parsed base 2. -/
def getSignedInteger (tcm : List Char) : Option Int :=
  match tcm with
  | [] => none
  | signBit :: rest =>
    if signBit = '0' then (parseBin rest).map (fun n => (n : Int))
    else (parseBin rest).map (fun n => -(n : Int))

/-- The composition `getSignedInteger(twosCM(r))` applied by `main` to a raw
branch immediate with the high bit set. -/
def signedOffset (r : Nat) : Option Int :=
  (twosCM r).bind getSignedInteger

/-- Python `s.startswith(pre)`. -/
def pyStartsWith (s pre : String) : Bool :=
  pre.data.isPrefixOf s.data

/-- `hex(n).replace('0x', '').zfill(4)`. -/
def zfill (k : Nat) (cs : List Char) : List Char :=
  List.replicate (k - cs.length) '0' ++ cs

def hexAddrStr (n : Nat) : String :=
  String.mk (zfill 4 (Nat.toDigits 16 n))

/-- The state persisting across loop iterations of `main`: the output buffer
`listQ`, and the pending-forward-label pair `tempAddress`/`checkIndex`. -/
structure St where
  listQ : List String
  tempAddress : String
  checkIndex : Nat
deriving Repr, DecidableEq

/-- One iteration of the `for index, value in enumerate(hex_values)` loop of
`main`.  `none` models a process abort (an `errorOut` call or an uncaught
exception); note that a nonzero opcode missing from `iOpcodes` falls through
the `elif` chain with **no** `else`, so the word is silently skipped. -/
def processWord (st : St) (index : Nat) (value : List Char) : Option St :=
  match getOpCode value with
  | none => none
  | some opcode =>
    if opcode = 0 then
      match getRTypeFunction value, getRTypeRDRegister value, getRSRegister value,
            getRTRegister value, getRTypeShamt value with
      | some func, some rd, some rs, some rt, some sh =>
        if func = "srl" ∨ func = "sll" then
          some { st with listQ := st.listQ ++
            ["\t" ++ func ++ ", " ++ rd ++ ", " ++ rt ++ ", " ++ sh] }
        else
          some { st with listQ := st.listQ ++
            ["\t" ++ func ++ ", " ++ rd ++ ", " ++ rs ++ ", " ++ rt] }
      | _, _, _, _, _ => none
    else
      match iOpcodes opcode with
      | none => some st
      | some func =>
        match getRSRegister value, getRTRegister value, getITypeImmediate value with
        | some rs, some rt, some im =>
          if func = "sw" ∨ func = "lw" then
            some { st with listQ := st.listQ ++
              ["\t" ++ func ++ ", " ++ rt ++ ", " ++ Nat.repr im ++ "(" ++ rs ++ ")"] }
          else if func = "beq" ∨ func = "bne" then
            if index = st.checkIndex then
              some { st with listQ := st.listQ ++ ["Addr_" ++ st.tempAddress ++ ":"] }
            else if 32768 ≤ im then
              match twosCM im with
              | none => none
              | some tcm =>
                match getSignedInteger tcm with
                | none => none
                | some signedInt =>
                  let tempIndexI : Int := (index : Int) + signedInt
                  let tempIndex : Nat := if tempIndexI < 0 then 0 else tempIndexI.toNat
                  let hexAddr : String := hexAddrStr (tempIndex * 4)
                  match st.listQ[tempIndex]? with
                  | none => none
                  | some cur =>
                    let listQ1 := if pyStartsWith cur "Addr" then st.listQ
                      else st.listQ.insertIdx tempIndex ("Addr_" ++ hexAddr ++ ":")
                    some { st with listQ := listQ1 ++
                      ["\t" ++ func ++ ", " ++ rt ++ ", " ++ rs ++ ", Addr_" ++ hexAddr] }
            else
              let checkIndex := index + im
              let tempAddress := hexAddrStr (checkIndex * 4 + 4)
              some (St.mk
                (st.listQ ++
                  ["\t" ++ func ++ ", " ++ rt ++ ", " ++ rs ++ ", Addr_" ++ tempAddress])
                tempAddress checkIndex)
          else
            some { st with listQ := st.listQ ++
              ["\t" ++ func ++ ", " ++ rt ++ ", " ++ rs ++ ", " ++ Nat.repr im] }
        | _, _, _ => none

/-- The whole loop of `main`, threading the slot index. -/
def runLoop : St → Nat → List (List Char) → Option St
  | st, _, [] => some st
  | st, index, w :: ws =>
    match processWord st index w with
    | none => none
    | some st2 => runLoop st2 (index + 1) ws

/-- `main` on an input file given as its list of hex-word lines; `some lines`
means the run completed and `lines` is exactly what is printed and written to
the `.s` output file, `none` means the process aborted before writing anything. -/
def main (input : List (List Char)) : Option (List String) :=
  (runLoop ⟨[], "", 0⟩ 0 input).map St.listQ

/-- Whether a word decodes (via `getOpCode` and the `iOpcodes` table) to a
`beq`/`bne` instruction — the only class whose handling in `main` consults the
pending-label state. -/
def isBranchWord (value : List Char) : Bool :=
  match getOpCode value with
  | none => false
  | some opcode =>
    match iOpcodes opcode with
    | some func => func == "beq" || func == "bne"
    | none => false

/-- Derived characterization used for the purity claims: the list of lines a
single **non-branch** word contributes to the buffer.  It is definitionally
the non-branch fragment of `processWord` and depends only on the word — not on
the slot index or on the loop state.  (For a `beq`/`bne` word it returns
`none` and is not meaningful.) -/
def decodeNonBranchLine (value : List Char) : Option (List String) :=
  match getOpCode value with
  | none => none
  | some opcode =>
    if opcode = 0 then
      match getRTypeFunction value, getRTypeRDRegister value, getRSRegister value,
            getRTRegister value, getRTypeShamt value with
      | some func, some rd, some rs, some rt, some sh =>
        if func = "srl" ∨ func = "sll" then
          some ["\t" ++ func ++ ", " ++ rd ++ ", " ++ rt ++ ", " ++ sh]
        else
          some ["\t" ++ func ++ ", " ++ rd ++ ", " ++ rs ++ ", " ++ rt]
      | _, _, _, _, _ => none
    else
      match iOpcodes opcode with
      | none => some []
      | some func =>
        match getRSRegister value, getRTRegister value, getITypeImmediate value with
        | some rs, some rt, some im =>
          if func = "sw" ∨ func = "lw" then
            some ["\t" ++ func ++ ", " ++ rt ++ ", " ++ Nat.repr im ++ "(" ++ rs ++ ")"]
          else if func = "beq" ∨ func = "bne" then
            none
          else
            some ["\t" ++ func ++ ", " ++ rt ++ ", " ++ rs ++ ", " ++ Nat.repr im]
        | _, _, _ => none

/-! ## Helper lemmas shared by the claim theorems -/

theorem pyStartsWith_tab (s : String) : pyStartsWith ("\t" ++ s) "Addr" = false := by
  cases s
  rfl

theorem insertIdx_eq_take_cons_drop {α : Type} (l : List α) (n : Nat) (x : α)
    (h : n ≤ l.length) :
    l.insertIdx n x = l.take n ++ x :: l.drop n := by
  induction l generalizing n with
  | nil =>
    have h0 : n = 0 := Nat.le_zero.mp h
    subst h0
    rfl
  | cons a t ih =>
    cases n with
    | zero => rfl
    | succ m =>
      rw [List.insertIdx_succ_cons, ih m (Nat.le_of_succ_le_succ h)]
      rfl

/-- Unfolding of `processWord` on a `beq`/`bne` word taking the backward
(`im ≥ 32768`) path: the discharge check misses, the signed conversion
succeeds, and the destination buffer position is occupied. -/
theorem processWord_backward (st : St) (index : Nat) (w : List Char) (op : Nat)
    (f rs rt : String) (im : Nat) (tcm : List Char) (d : Int) (dest : Nat) (cur : String)
    (hOp : getOpCode w = some op) (hF : iOpcodes op = some f)
    (hBr : f = "beq" ∨ f = "bne") (hRS : getRSRegister w = some rs)
    (hRT : getRTRegister w = some rt) (hIM : getITypeImmediate w = some im)
    (hNd : index ≠ st.checkIndex) (hNeg : 32768 ≤ im)
    (hT : twosCM im = some tcm) (hS : getSignedInteger tcm = some d)
    (hDest : dest = if (index : Int) + d < 0 then 0 else ((index : Int) + d).toNat)
    (hCur : st.listQ[dest]? = some cur) :
    processWord st index w =
      some (St.mk
        ((if pyStartsWith cur "Addr" then st.listQ
          else st.listQ.insertIdx dest ("Addr_" ++ hexAddrStr (dest * 4) ++ ":")) ++
          ["\t" ++ f ++ ", " ++ rt ++ ", " ++ rs ++ ", Addr_" ++ hexAddrStr (dest * 4)])
        st.tempAddress st.checkIndex) := by
  have hop0 : op ≠ 0 := by rintro rfl; simp [iOpcodes] at hF
  subst hDest
  rcases hBr with rfl | rfl <;>
    simp only [processWord, hOp, if_neg hop0, hF, hRS, hRT, hIM, hT, hS, hCur] <;>
    rw [if_neg (by decide), if_pos (by decide), if_neg hNd, if_pos (by omega)]

/-- Unfolding of `processWord` on a non-branch word: the contributed lines are
`decodeNonBranchLine` of the word alone, and the pending-label state passes
through untouched. -/
theorem processWord_nonBranch (st : St) (index : Nat) (w : List Char)
    (h : isBranchWord w = false) :
    processWord st index w =
      (decodeNonBranchLine w).map
        (fun t => St.mk (st.listQ ++ t) st.tempAddress st.checkIndex) := by
  obtain ⟨q, ta, ci⟩ := st
  cases hOp : getOpCode w with
  | none => simp [processWord, decodeNonBranchLine, hOp]
  | some op =>
    simp only [isBranchWord, hOp] at h
    simp only [processWord, decodeNonBranchLine, hOp]
    by_cases h0 : op = 0
    · subst h0
      rw [if_pos rfl, if_pos rfl]
      cases hf : getRTypeFunction w with
      | none => simp [hf]
      | some func =>
        cases hrd : getRTypeRDRegister w with
        | none => simp [hf, hrd]
        | some rd =>
          cases hrs : getRSRegister w with
          | none => simp [hf, hrd, hrs]
          | some rs =>
            cases hrt : getRTRegister w with
            | none => simp [hf, hrd, hrs, hrt]
            | some rt =>
              cases hsh : getRTypeShamt w with
              | none => simp [hf, hrd, hrs, hrt, hsh]
              | some sh =>
                simp only [hf, hrd, hrs, hrt, hsh, Option.map_some]
                split <;> rfl
    · rw [if_neg h0, if_neg h0]
      cases hio : iOpcodes op with
      | none => simp [hio]
      | some func =>
        simp only [hio] at h
        have hne : ¬(func = "beq" ∨ func = "bne") := by
          simp only [Bool.or_eq_false_iff, beq_eq_false_iff_ne, ne_eq] at h
          tauto
        cases hrs : getRSRegister w with
        | none => simp [hrs]
        | some rs =>
          cases hrt : getRTRegister w with
          | none => simp [hrs, hrt]
          | some rt =>
            cases him : getITypeImmediate w with
            | none => simp [hrs, hrt, him]
            | some im =>
              simp only [hrs, hrt, him, Option.map_some, if_neg hne]
              split <;> rfl

/-- Every line a non-branch word contributes starts with a tab character, so
it is never a label line. -/
theorem decodeNonBranchLine_tab (w : List Char) (t : List String) (l : String)
    (ht : decodeNonBranchLine w = some t) (hl : l ∈ t) :
    pyStartsWith l "Addr" = false := by
  unfold decodeNonBranchLine at ht
  cases hOp : getOpCode w with
  | none => simp [hOp] at ht
  | some op =>
    simp only [hOp] at ht
    by_cases h0 : op = 0
    · subst h0
      rw [if_pos rfl] at ht
      cases hf : getRTypeFunction w with
      | none => simp [hf] at ht
      | some func =>
        cases hrd : getRTypeRDRegister w with
        | none => simp [hf, hrd] at ht
        | some rd =>
          cases hrs : getRSRegister w with
          | none => simp [hf, hrd, hrs] at ht
          | some rs =>
            cases hrt : getRTRegister w with
            | none => simp [hf, hrd, hrs, hrt] at ht
            | some rt =>
              cases hsh : getRTypeShamt w with
              | none => simp [hf, hrd, hrs, hrt, hsh] at ht
              | some sh =>
                simp only [hf, hrd, hrs, hrt, hsh] at ht
                split at ht <;>
                  (injection ht with ht; subst ht; rw [List.mem_singleton] at hl;
                    subst hl; cases func; rfl)
    · rw [if_neg h0] at ht
      cases hio : iOpcodes op with
      | none =>
        simp only [hio] at ht
        injection ht with ht
        subst ht
        exact absurd hl (by simp)
      | some func =>
        simp only [hio] at ht
        cases hrs : getRSRegister w with
        | none => simp [hrs] at ht
        | some rs =>
          cases hrt : getRTRegister w with
          | none => simp [hrs, hrt] at ht
          | some rt =>
            cases him : getITypeImmediate w with
            | none => simp [hrs, hrt, him] at ht
            | some im =>
              simp only [hrs, hrt, him] at ht
              split at ht
              · injection ht with ht
                subst ht
                rw [List.mem_singleton] at hl
                subst hl
                cases func
                rfl
              · split at ht
                · exact absurd ht (by simp)
                · injection ht with ht
                  subst ht
                  rw [List.mem_singleton] at hl
                  subst hl
                  cases func
                  rfl

/-- Every `some` result of `hexToBinLookup` is a 4-character binary pattern. -/
theorem hexToBinLookup_spec (c : Char) (bs : List Char)
    (h : hexToBinLookup c = some bs) :
    bs.length = 4 ∧ ∀ x ∈ bs, x = '0' ∨ x = '1' := by
  unfold hexToBinLookup at h
  split at h <;> first
    | (injection h with h; subst h; decide)
    | exact absurd h (by simp)

/-- The register dictionary is total on 5-character binary patterns. -/
theorem registerDictionary_total (bs : List Char) (h5 : bs.length = 5)
    (hb : ∀ c ∈ bs, c = '0' ∨ c = '1') :
    (registerDictionary bs).isSome = true := by
  rcases bs with _ | ⟨a, _ | ⟨b, _ | ⟨c, _ | ⟨d, _ | ⟨e, _ | ⟨x, xs⟩⟩⟩⟩⟩⟩ <;>
    simp only [List.length] at h5 <;> try omega
  have ha := hb a (by simp)
  have hbb := hb b (by simp)
  have hc := hb c (by simp)
  have hd := hb d (by simp)
  have he := hb e (by simp)
  rcases ha with rfl | rfl <;> rcases hbb with rfl | rfl <;> rcases hc with rfl | rfl <;>
    rcases hd with rfl | rfl <;> rcases he with rfl | rfl <;> rfl

/-- A concatenation of two binary patterns is a binary pattern. -/
theorem bitsAppend (b1 b2 : List Char) (m1 : ∀ x ∈ b1, x = '0' ∨ x = '1')
    (m2 : ∀ x ∈ b2, x = '0' ∨ x = '1') :
    ∀ x ∈ b1 ++ b2, x = '0' ∨ x = '1' := by
  intro x hxx
  rcases List.mem_append.mp hxx with h | h
  exacts [m1 x h, m2 x h]

/-! ## Claim theorems -/

/-- C1: the claim says a nonzero primary opcode outside the 17-entry I-type
table fails with `UnknownOpcode`, aborting the pass with no output persisted.
The code instead **silently skips** such a word: the `elif opcode in iOpcodes`
test simply falls through (the inner `errorOut` guard is dead code), the pass
continues, and the output of the remaining words is persisted.  The word
`fc000000` has primary opcode `0x3f`, which is nonzero and unmapped: a run
containing it completes and writes the output file. -/
theorem c1_unknown_opcode_skipped_not_fatal :
    main ["fc000000".data] = some [] ∧
    main ["fc000000".data, "20010005".data] = some ["\taddi, $at, $zero, 5"] :=
  ⟨rfl, rfl⟩

/-- C2: the claim (and the docstrings of `twosCM`/`getSignedInteger`) say the
conversion of a raw immediate `r ≥ 32768` returns `r - 65536`.  Because
`strip('0b')` also strips **trailing** `'0'` characters, the code is wrong on
every even such `r`: `0xFFF8 = 65528` converts to `-1` instead of `-8`, and
`0x8000 = 32768` raises an uncaught `ValueError` (here `none`).  The odd case
`0xFFF9 = 65529` does return `-7` as the claim's example states. -/
theorem c2_signed_conversion_eval :
    signedOffset 65528 = some (-1) ∧
    signedOffset 65529 = some (-7) ∧
    signedOffset 32768 = none := by
  refine ⟨by decide, by decide, by decide⟩

/-- C3 counterexample: the claim omits the pending-label discharge proviso.
A `bne` at slot 0 with raw immediate `0xFFF9` has `index = checkIndex = 0`
(the initial pending state), so the code appends the discharge line `Addr_:`
instead of splicing a label at the clamped destination 0 and appending a
branch line referencing `Addr_0000` as the claim requires. -/
theorem c3_counterexample_discharge_preempts_backward :
    main ["1441fff9".data] = some ["Addr_:"] ∧
    main ["1441fff9".data] ≠ some ["Addr_0000:", "\tbne, $at, $v0, Addr_0000"] := by
  exact ⟨rfl, by decide⟩

/-- C3 (amended): for a `beq`/`bne` word at slot `index` with raw immediate
`im ≥ 32768`, **provided** the slot is not the pending-label target, the
signed conversion succeeds with offset `d`, and the destination buffer
position `dest` (clamped below at 0) is occupied: the address text is the
zero-padded 4-hex-digit rendering of `dest * 4`, a label line is spliced at
buffer position `dest` unless the line there already is a label line, and the
branch's own appended line references `Addr_<addressText>`. -/
theorem c3_backward_branch_amended (st : St) (index : Nat) (w : List Char) (op : Nat)
    (f rs rt : String) (im : Nat) (tcm : List Char) (d : Int) (dest : Nat) (cur : String)
    (hOp : getOpCode w = some op) (hF : iOpcodes op = some f)
    (hBr : f = "beq" ∨ f = "bne") (hRS : getRSRegister w = some rs)
    (hRT : getRTRegister w = some rt) (hIM : getITypeImmediate w = some im)
    (hNd : index ≠ st.checkIndex) (hNeg : 32768 ≤ im)
    (hT : twosCM im = some tcm) (hS : getSignedInteger tcm = some d)
    (hDest : dest = if (index : Int) + d < 0 then 0 else ((index : Int) + d).toNat)
    (hCur : st.listQ[dest]? = some cur) :
    processWord st index w =
      some (St.mk
        ((if pyStartsWith cur "Addr" then st.listQ
          else st.listQ.insertIdx dest ("Addr_" ++ hexAddrStr (dest * 4) ++ ":")) ++
          ["\t" ++ f ++ ", " ++ rt ++ ", " ++ rs ++ ", Addr_" ++ hexAddrStr (dest * 4)])
        st.tempAddress st.checkIndex) :=
  processWord_backward st index w op f rs rt im tcm d dest cur hOp hF hBr hRS hRT hIM
    hNd hNeg hT hS hDest hCur

/-- C3 witness: the claim's own scenario — a `bne` at slot 10 with raw
immediate `0xFFF9` (offset `-7`) splices `Addr_000c:` at position 3 and its
own line references `Addr_000c`. -/
theorem c3_backward_branch_amended_witness :
    processWord (St.mk (List.replicate 10 "\tx") "" 999) 10 "1441fff9".data =
      some (St.mk
        ["\tx", "\tx", "\tx", "Addr_000c:", "\tx", "\tx", "\tx", "\tx", "\tx", "\tx",
          "\tx", "\tbne, $at, $v0, Addr_000c"]
        "" 999) :=
  c3_backward_branch_amended (St.mk (List.replicate 10 "\tx") "" 999) 10 "1441fff9".data
    5 "bne" "$v0" "$at" 65529 "1000000000000111".data (-7) 3 "\tx"
    rfl rfl (Or.inr rfl) rfl rfl rfl (by decide) (by decide) rfl rfl (by decide) rfl

/-- C4: a `beq`/`bne` word at slot `index` with raw immediate `im < 32768`
that is not discharging the pending label sets the destination slot to
`index + im`, renders the address text as the zero-padded 4-hex-digit form of
`(destination * 4) + 4`, **unconditionally overwrites** the single pending
forward label (the theorem holds for every prior `tempAddress`/`checkIndex`,
so a second forward branch silently replaces an undischarged one), and appends
the branch's own line referencing `Addr_<addressText>`. -/
theorem c4_forward_branch (st : St) (index : Nat) (w : List Char) (op : Nat)
    (f rs rt : String) (im : Nat)
    (hOp : getOpCode w = some op) (hF : iOpcodes op = some f)
    (hBr : f = "beq" ∨ f = "bne") (hRS : getRSRegister w = some rs)
    (hRT : getRTRegister w = some rt) (hIM : getITypeImmediate w = some im)
    (hNd : index ≠ st.checkIndex) (hPos : im < 32768) :
    processWord st index w =
      some (St.mk
        (st.listQ ++ ["\t" ++ f ++ ", " ++ rt ++ ", " ++ rs ++ ", Addr_" ++
          hexAddrStr ((index + im) * 4 + 4)])
        (hexAddrStr ((index + im) * 4 + 4)) (index + im)) := by
  have hop0 : op ≠ 0 := by rintro rfl; simp [iOpcodes] at hF
  rcases hBr with rfl | rfl <;>
    simp only [processWord, hOp, if_neg hop0, hF, hRS, hRT, hIM] <;>
    rw [if_neg (by decide), if_pos (by decide), if_neg hNd, if_neg (by omega)]

/-- C4 witness: a `beq` at slot 1 with raw immediate 2 targets slot 3 with
address text `0010` and replaces the pending pair `("xyz", 7)`. -/
theorem c4_forward_branch_witness :
    processWord (St.mk ["\ta"] "xyz" 7) 1 "10220002".data =
      some (St.mk ["\ta", "\tbeq, $v0, $at, Addr_0010"] "0010" 3) :=
  c4_forward_branch (St.mk ["\ta"] "xyz" 7) 1 "10220002".data 4 "beq" "$at" "$v0" 2
    rfl rfl (Or.inl rfl) rfl rfl rfl (by decide) (by decide)

/-- C5: pending-label discharge is triggered only by `beq`/`bne` words.
First conjunct: a decodable `beq`/`bne` whose slot index equals the pending
`checkIndex` appends the standalone label line `Addr_<tempAddress>:` instead
of its own rendering, leaving the pending state as it was.  Second and third
conjuncts: a non-branch word never consults or alters the pending state — its
contribution is `decodeNonBranchLine` of the word alone, and none of those
lines is a label line. -/
theorem c5_discharge_only_for_branches :
    (∀ (st : St) (index : Nat) (w : List Char) (op : Nat) (f rs rt : String) (im : Nat),
      getOpCode w = some op → iOpcodes op = some f → f = "beq" ∨ f = "bne" →
      getRSRegister w = some rs → getRTRegister w = some rt →
      getITypeImmediate w = some im → index = st.checkIndex →
      processWord st index w =
        some (St.mk (st.listQ ++ ["Addr_" ++ st.tempAddress ++ ":"])
          st.tempAddress st.checkIndex)) ∧
    (∀ (st : St) (index : Nat) (w : List Char), isBranchWord w = false →
      processWord st index w =
        (decodeNonBranchLine w).map
          (fun t => St.mk (st.listQ ++ t) st.tempAddress st.checkIndex)) ∧
    (∀ (w : List Char) (t : List String) (l : String),
      decodeNonBranchLine w = some t → l ∈ t → pyStartsWith l "Addr" = false) := by
  refine ⟨?_, processWord_nonBranch, decodeNonBranchLine_tab⟩
  intro st index w op f rs rt im hOp hF hBr hRS hRT hIM hEq
  have hop0 : op ≠ 0 := by rintro rfl; simp [iOpcodes] at hF
  rcases hBr with rfl | rfl <;>
    simp only [processWord, hOp, if_neg hop0, hF, hRS, hRT, hIM] <;>
    rw [if_neg (by decide), if_pos (by decide), if_pos hEq]

/-- C5 witness: a `beq` at the pending slot 2 discharges `Addr_00ff:`; an
`addi` at its own pending slot 1 is rendered normally (no discharge) and its
line is not a label line. -/
theorem c5_discharge_only_for_branches_witness :
    processWord (St.mk ["\ta"] "00ff" 2) 2 "10220002".data =
      some (St.mk ["\ta", "Addr_00ff:"] "00ff" 2) ∧
    processWord (St.mk ["\tb"] "zz" 1) 1 "20010005".data =
      some (St.mk ["\tb", "\taddi, $at, $zero, 5"] "zz" 1) ∧
    pyStartsWith "\taddi, $at, $zero, 5" "Addr" = false :=
  ⟨c5_discharge_only_for_branches.1 (St.mk ["\ta"] "00ff" 2) 2 "10220002".data
      4 "beq" "$at" "$v0" 2 rfl rfl (Or.inl rfl) rfl rfl rfl rfl,
    c5_discharge_only_for_branches.2.1 (St.mk ["\tb"] "zz" 1) 1 "20010005".data rfl,
    c5_discharge_only_for_branches.2.2 "20010005".data ["\taddi, $at, $zero, 5"]
      "\taddi, $at, $zero, 5" rfl (List.mem_singleton.mpr rfl)⟩

/-- C6: a backward splice at buffer position `dest` leaves the text of every
pre-existing line byte-identical: the first `dest` lines are unchanged at
their positions, the old suffix from position `dest` reappears shifted one
position later (followed only by the branch's own appended line), and the
buffer grows by exactly the two new lines — no pre-existing line (in
particular no already-embedded address text) is recomputed. -/
theorem c6_splice_preserves_lines (st : St) (index : Nat) (w : List Char) (op : Nat)
    (f rs rt : String) (im : Nat) (tcm : List Char) (d : Int) (dest : Nat) (cur : String)
    (hOp : getOpCode w = some op) (hF : iOpcodes op = some f)
    (hBr : f = "beq" ∨ f = "bne") (hRS : getRSRegister w = some rs)
    (hRT : getRTRegister w = some rt) (hIM : getITypeImmediate w = some im)
    (hNd : index ≠ st.checkIndex) (hNeg : 32768 ≤ im)
    (hT : twosCM im = some tcm) (hS : getSignedInteger tcm = some d)
    (hDest : dest = if (index : Int) + d < 0 then 0 else ((index : Int) + d).toNat)
    (hCur : st.listQ[dest]? = some cur)
    (hLbl : pyStartsWith cur "Addr" = false) :
    (processWord st index w).map (fun s => s.listQ.take dest) =
      some (st.listQ.take dest) ∧
    (processWord st index w).map (fun s => s.listQ.drop (dest + 1)) =
      some (st.listQ.drop dest ++
        ["\t" ++ f ++ ", " ++ rt ++ ", " ++ rs ++ ", Addr_" ++ hexAddrStr (dest * 4)]) ∧
    (processWord st index w).map (fun s => s.listQ.length) =
      some (st.listQ.length + 2) := by
  have hlt : dest < st.listQ.length := by
    rcases List.getElem?_eq_some.mp hCur with ⟨h, _⟩
    exact h
  rw [processWord_backward st index w op f rs rt im tcm d dest cur hOp hF hBr hRS hRT
    hIM hNd hNeg hT hS hDest hCur]
  rw [hLbl]
  simp only [Bool.false_eq_true, if_false]
  rw [insertIdx_eq_take_cons_drop st.listQ dest _ (Nat.le_of_lt hlt)]
  have htk : (st.listQ.take dest).length = dest := by
    rw [List.length_take]
    omega
  refine ⟨?_, ?_, ?_⟩
  · rw [Option.map_some', List.append_assoc, List.take_left' htk]
  · rw [Option.map_some',
      List.append_cons (st.listQ.take dest) ("Addr_" ++ hexAddrStr (dest * 4) ++ ":")
        (st.listQ.drop dest),
      List.append_assoc (st.listQ.take dest ++ ["Addr_" ++ hexAddrStr (dest * 4) ++ ":"])
        (st.listQ.drop dest)
        ["\t" ++ f ++ ", " ++ rt ++ ", " ++ rs ++ ", Addr_" ++ hexAddrStr (dest * 4)],
      List.drop_left' (show (st.listQ.take dest ++
        ["Addr_" ++ hexAddrStr (dest * 4) ++ ":"]).length = dest + 1 by simp [htk])]
  · rw [Option.map_some']
    have hdp : (st.listQ.drop dest).length = st.listQ.length - dest :=
      List.length_drop dest st.listQ
    simp only [Option.some.injEq, List.length_append, List.length_cons, htk, hdp,
      List.length_nil]
    omega

/-- C6 witness: a `bne` at slot 4 with offset `-3` splices at position 1 of a
5-line buffer; the line before keeps its position, the four later lines
reappear one position down unchanged, and the length grows by two. -/
theorem c6_splice_preserves_lines_witness :
    (processWord (St.mk ["\tw0", "\tw1", "\tw2", "\tw3", "\tw4"] "zz" 99) 4
        "1441fffd".data).map (fun s => s.listQ.take 1) = some ["\tw0"] ∧
    (processWord (St.mk ["\tw0", "\tw1", "\tw2", "\tw3", "\tw4"] "zz" 99) 4
        "1441fffd".data).map (fun s => s.listQ.drop 2) =
      some ["\tw1", "\tw2", "\tw3", "\tw4", "\tbne, $at, $v0, Addr_0004"] ∧
    (processWord (St.mk ["\tw0", "\tw1", "\tw2", "\tw3", "\tw4"] "zz" 99) 4
        "1441fffd".data).map (fun s => s.listQ.length) = some 7 :=
  c6_splice_preserves_lines (St.mk ["\tw0", "\tw1", "\tw2", "\tw3", "\tw4"] "zz" 99) 4
    "1441fffd".data 5 "bne" "$v0" "$at" 65533 "1000000000000011".data (-3) 1 "\tw1"
    rfl rfl (Or.inr rfl) rfl rfl rfl (by decide) (by decide) rfl rfl (by decide) rfl rfl

/-- C7 counterexample: hex input is **not** case-insensitive.  The lowercase
word `8c080000` decodes (`lw`), but its uppercase spelling `8C080000` aborts:
`hexToBinLookup` has only lowercase keys, so field extraction crashes on `C`. -/
theorem c7_counterexample_uppercase_fails :
    main ["8c080000".data] = some ["\tlw, $t0, 0($zero)"] ∧
    main ["8C080000".data] = none :=
  ⟨rfl, rfl⟩

/-- C7 (amended): case-insensitivity holds only for the opcode parse
(`int(_, 16)` accepts both cases via `hexDigitVal`); the nibble-level field
extraction is lowercase-only: every uppercase hex letter is absent from
`hexToBinLookup` while its lowercase counterpart (code point + 32) is present,
with the same numeric value in the opcode parse.  A word whose field nibbles
contain an uppercase letter therefore fails to decode although its lowercase
spelling succeeds. -/
theorem c7_case_sensitivity_amended (c : Char)
    (hc : c ∈ (['A', 'B', 'C', 'D', 'E', 'F'] : List Char)) :
    hexToBinLookup c = none ∧
    (hexToBinLookup (Char.ofNat (c.toNat + 32))).isSome = true ∧
    hexDigitVal c = hexDigitVal (Char.ofNat (c.toNat + 32)) := by
  fin_cases hc <;> exact ⟨rfl, rfl, rfl⟩

/-- C7 witness: the uppercase digit `C` misses the nibble table, lowercase `c`
hits it, and both parse to the same hex value 12. -/
theorem c7_case_sensitivity_amended_witness :
    hexToBinLookup 'C' = none ∧
    (hexToBinLookup (Char.ofNat ('C'.toNat + 32))).isSome = true ∧
    hexDigitVal 'C' = hexDigitVal (Char.ofNat ('C'.toNat + 32)) :=
  c7_case_sensitivity_amended 'C' (by decide)

/-- C8: register resolution is total.  Every 5-character binary pattern is a
key of `registerDictionary`, and on any 8-character word whose characters all
have nibble translations, the three register extractors succeed — the
defensive `UnknownRegister` branch (`none`) is unreachable. -/
theorem c8_register_resolution_total :
    (∀ bs : List Char, bs.length = 5 → (∀ c ∈ bs, c = '0' ∨ c = '1') →
      (registerDictionary bs).isSome = true) ∧
    (∀ w : List Char, w.length = 8 → (∀ c ∈ w, (hexToBinLookup c).isSome = true) →
      (getRSRegister w).isSome = true ∧ (getRTRegister w).isSome = true ∧
        (getRTypeRDRegister w).isSome = true) := by
  refine ⟨registerDictionary_total, ?_⟩
  intro w h8 hx
  rcases w with _ | ⟨c0, _ | ⟨c1, _ | ⟨c2, _ | ⟨c3, _ | ⟨c4, _ | ⟨c5, _ | ⟨c6, _ |
    ⟨c7, rest⟩⟩⟩⟩⟩⟩⟩⟩ <;> simp only [List.length] at h8 <;> try omega
  have hrest : rest = [] := List.eq_nil_of_length_eq_zero (by omega)
  subst hrest
  obtain ⟨b1, e1⟩ := Option.isSome_iff_exists.mp (hx c1 (by simp))
  obtain ⟨b2, e2⟩ := Option.isSome_iff_exists.mp (hx c2 (by simp))
  obtain ⟨b3, e3⟩ := Option.isSome_iff_exists.mp (hx c3 (by simp))
  obtain ⟨b4, e4⟩ := Option.isSome_iff_exists.mp (hx c4 (by simp))
  obtain ⟨b5, e5⟩ := Option.isSome_iff_exists.mp (hx c5 (by simp))
  obtain ⟨l1, m1⟩ := hexToBinLookup_spec _ _ e1
  obtain ⟨l2, m2⟩ := hexToBinLookup_spec _ _ e2
  obtain ⟨l3, m3⟩ := hexToBinLookup_spec _ _ e3
  obtain ⟨l4, m4⟩ := hexToBinLookup_spec _ _ e4
  obtain ⟨l5, m5⟩ := hexToBinLookup_spec _ _ e5
  refine ⟨?_, ?_, ?_⟩
  · rw [show getRSRegister [c0, c1, c2, c3, c4, c5, c6, c7] =
        registerDictionary (((b1 ++ b2).drop 2).take 5) from by
      simp [getRSRegister, e1, e2]]
    refine registerDictionary_total _ ?_ ?_
    · simp [List.length_take, List.length_drop, l1, l2]
    · intro x hxx
      exact bitsAppend b1 b2 m1 m2 x (List.drop_subset _ _ (List.take_subset _ _ hxx))
  · rw [show getRTRegister [c0, c1, c2, c3, c4, c5, c6, c7] =
        registerDictionary ((b2 ++ b3).drop 3) from by
      simp [getRTRegister, e2, e3]]
    refine registerDictionary_total _ ?_ ?_
    · simp [List.length_drop, l2, l3]
    · intro x hxx
      exact bitsAppend b2 b3 m2 m3 x (List.drop_subset _ _ hxx)
  · rw [show getRTypeRDRegister [c0, c1, c2, c3, c4, c5, c6, c7] =
        registerDictionary ((b4 ++ b5).take 5) from by
      simp [getRTypeRDRegister, e4, e5]]
    refine registerDictionary_total _ ?_ ?_
    · simp [List.length_take, l4, l5]
    · intro x hxx
      exact bitsAppend b4 b5 m4 m5 x (List.take_subset _ _ hxx)

/-- C8 witness: the all-ones pattern resolves (to `$ra`), and on the concrete
word `01234567` all three register extractors succeed. -/
theorem c8_register_resolution_total_witness :
    (registerDictionary ['1', '1', '1', '1', '1']).isSome = true ∧
    ((getRSRegister "01234567".data).isSome = true ∧
      (getRTRegister "01234567".data).isSome = true ∧
      (getRTypeRDRegister "01234567".data).isSome = true) :=
  ⟨c8_register_resolution_total.1 ['1', '1', '1', '1', '1'] rfl (by decide),
    c8_register_resolution_total.2 "01234567".data rfl (by decide)⟩

/-- C9 counterexample: decoding is **not** pure for branch words.  The same
`beq` word `10220002` occurring at slots 1 and 2 of one run renders two
different lines (`Addr_0010` vs `Addr_0014`), because the rendered address
depends on the slot index. -/
theorem c9_counterexample_branch_not_pure :
    main ["20010005".data, "10220002".data, "10220002".data] =
      some ["\taddi, $at, $zero, 5", "\tbeq, $v0, $at, Addr_0010",
        "\tbeq, $v0, $at, Addr_0014"] ∧
    ("\tbeq, $v0, $at, Addr_0010" : String) ≠ "\tbeq, $v0, $at, Addr_0014" := by
  exact ⟨rfl, by decide⟩

/-- C9 (amended): decoding of **non-branch** words is pure and idempotent —
the lines contributed by such a word are the same at any two occurrences,
whatever the slot indices and whatever the accumulated state; branch words'
rendering instead depends on the slot and the pending-label state. -/
theorem c9_nonbranch_pure_amended (st1 st2 : St) (i1 i2 : Nat) (w : List Char)
    (h : isBranchWord w = false) :
    (processWord st1 i1 w).map (fun s => s.listQ.drop st1.listQ.length) =
      (processWord st2 i2 w).map (fun s => s.listQ.drop st2.listQ.length) := by
  rw [processWord_nonBranch st1 i1 w h, processWord_nonBranch st2 i2 w h]
  cases decodeNonBranchLine w with
  | none => rfl
  | some t => simp [List.drop_left]

/-- C9 witness: the `addi` word `20010005` contributes the same line from two
different states and slot indices. -/
theorem c9_nonbranch_pure_amended_witness :
    (processWord (St.mk ["\tp"] "aa" 5) 3 "20010005".data).map
        (fun s => s.listQ.drop 1) =
      (processWord (St.mk [] "bb" 0) 7 "20010005".data).map
        (fun s => s.listQ.drop 0) :=
  c9_nonbranch_pure_amended (St.mk ["\tp"] "aa" 5) (St.mk [] "bb" 0) 3 7
    "20010005".data rfl

/-- C10: `main` initializes the pending-label state to `checkIndex = 0` with
empty `tempAddress`, so a `beq` as the very first word triggers the discharge
check immediately: the run appends the degenerate label line `Addr_:` and the
branch instruction itself is never rendered. -/
theorem c10_initial_pending_discharge :
    main ["10220002".data] = some ["Addr_:"] :=
  rfl

end Disasm
